import Mathlib

/-!
Verification of the Content Archive service
(`src/server/services/article_memory_v2.py`, with the legacy
`article_memory_v1.py` variant where the claims cite it).

Shallow embedding conventions:
* Python `str` is Lean `String` (a list of characters); slicing `s[:n]`
  is `pyTake s n`.
* `datetime` values are abstracted to `Int` timestamps at microsecond
  granularity.  The service writes `datetime.now().isoformat()` strings
  and compares them either after `fromisoformat` parsing (v2) or as raw
  strings (v1); both comparisons are order-isomorphic to the instants
  themselves for the uniform format the service writes, so a totally
  ordered integer time value is a faithful abstraction.
* A ChromaDB collection is a list of stored entries keyed by unique
  string ids.  Per the collaborator contract (spec §6) the index `put`
  overwrites on id conflict; `delete(ids)` removes the named ids;
  `count` is the length.
* Exceptions raised by the index inside a `try` block are modelled by an
  injected `fault : Option String` parameter (`none` = the index call
  succeeds, `some msg` = it raises `msg`); the surrounding `except`
  handler then produces the documented fallback value.
* The Python `list.sort` function is a stable sort; with a total preorder
  comparator the output of a stable sort is uniquely determined, so we embed
  it as `List.insertionSort` (stable) with the same comparator.
-/

namespace ArticleMemory

/-- Microseconds per day; `timedelta(days=d)` is `d * microsecondsPerDay`. -/
def microsecondsPerDay : Int := 86400000000

/-- Python slicing `s[:n]`: the first `n` characters of `s`. -/
def pyTake (s : String) (n : Nat) : String := ⟨s.data.take n⟩

/-- Python `s.split()` (no argument): split on whitespace runs, dropping
empty pieces.  Used only through its length (`len(content.split())`). -/
def pyWordCount (s : String) : Nat :=
  ((s.split fun c => c.isWhitespace).filter (fun w => w ≠ "")).length

/-- Python `s.split(",")` at the character level: split at every comma,
keeping empty pieces (`"".split(",") == [""]`, `",".split(",") == ["", ""]`). -/
def pySplitCommaChars : List Char → List (List Char)
  | [] => [[]]
  | c :: rest =>
    match pySplitCommaChars rest with
    | [] => [[]]
    | acc :: accs => if c = ',' then [] :: acc :: accs else (c :: acc) :: accs

/-- Python `s.split(",")` on strings. -/
def pySplitComma (s : String) : List String :=
  (pySplitCommaChars s.data).map fun cs => ⟨cs⟩

/-- Python `",".join` at the character level: the pieces in order with a
single comma between consecutive pieces. -/
def joinCommaChars : List (List Char) → List Char
  | [] => []
  | [t] => t
  | t :: ts => t ++ ',' :: joinCommaChars ts

/-- Python `",".join(ts)`. -/
def joinComma (ts : List String) : String :=
  ⟨joinCommaChars (ts.map String.data)⟩

/-- The read-side decoding of the stored topics string:
`metadata.get("topics", "").split(",") if metadata.get("topics") else []`
(an empty string is falsy, giving the empty list). -/
def splitTopics (s : String) : List String :=
  if s = "" then [] else pySplitComma s

/-- Models the Python expression `abs(hash(url))`: an arbitrary deterministic
non-negative hash of the string.  The Python string hash is randomized per
process but fixed within one, and the claims only use determinism and
the `% 10000` range, so any fixed function is a faithful model. -/
def stable_hash (s : String) : Nat :=
  s.data.foldl (fun h c => h * 31 + c.toNat) 0

/-- Python `f"{n:04d}"`: decimal, left-padded with zeros to width 4. -/
def pad4 (n : Nat) : String :=
  (⟨List.replicate (4 - (toString n).length) '0'⟩ : String) ++ toString n

/-- The content id derived by the legacy `store_article`
(`article_memory_v2.py` lines 206-209):
the f-string `cnt_` + source + `_` + date in YYYYMMDD form + `_` + `abs(hash(url)) % 10000` zero-padded to width 4.
`dateStr` is the `YYYYMMDD` rendering of the same `datetime.now()` call. -/
def derived_content_id (source dateStr url : String) : String :=
  "cnt_" ++ source ++ "_" ++ dateStr ++ "_" ++ pad4 (stable_hash url % 10000)

/-! ## Data model: stored entries of the two collections -/

/-- Metadata stored with an article
(`store_article_with_content_id`, lines 115-126).  The extra caller
`metadata` dict is kept as opaque extra keys; the source merges it last
(`**metadata`), so the embedding is faithful whenever its keys are
disjoint from the derived fields, as the inputs of every claim are. -/
structure ArticleMeta where
  content_id : String
  url : String
  title : String
  source : String
  topics : String
  summary : String
  timestamp : Int
  word_count : Nat
  reading_time : Nat
  extra : List (String × String)
deriving Repr, DecidableEq

/-- One entry of the `article_archive` collection. -/
structure StoredArticle where
  id : String
  document : String
  meta : ArticleMeta
deriving Repr, DecidableEq

/-- Metadata stored with a newspaper (`store_newspaper`, lines 396-409). -/
structure NewspaperMeta where
  newspaper_id : String
  title : String
  edition_type : String
  timestamp : Int
  article_count : Nat
  topics : String
  tone : String
  reading_time : Nat
deriving Repr, DecidableEq

/-- One entry of the `newspaper_archive` collection. -/
structure StoredNewspaper where
  id : String
  document : String
  meta : NewspaperMeta
deriving Repr, DecidableEq

/-- Index `add`/`put` with overwrite-on-conflict id semantics
(spec §6 collaborator contract, relied on for idempotent re-ingestion). -/
def collAdd {α : Type} (getId : α → String) (coll : List α) (e : α) : List α :=
  if coll.any fun x => getId x = getId e then
    coll.map fun x => if getId x = getId e then e else x
  else coll ++ [e]

/-- Exact lookup by id (`collection.get(ids=[id])`, first hit). -/
def collGet {α : Type} (getId : α → String) (coll : List α) (id : String) : Option α :=
  coll.find? fun e => getId e = id

/-- Index deletion `collection.delete(ids=...)`: remove every entry whose id is named. -/
def collDelete {α : Type} (getId : α → String) (coll : List α) (ids : List String) : List α :=
  coll.filter fun e => ¬ ids.contains (getId e)

/-! ## Article storage -/

/-- Result dict of the article write operations.  On success the dict
carries `content_id`, `url`, `title`, `timestamp`; on failure it carries
`content_id` and `error` (lines 135-141 and 145). -/
structure StoreArticleResult where
  success : Bool
  content_id : String
  url : Option String
  title : Option String
  timestamp : Option Int
  error : Option String
deriving Repr, DecidableEq

/-- The metadata dict built by `store_article_with_content_id`
(lines 115-126): derived `word_count` and `reading_time` come from the
full, untruncated `content`. -/
def article_meta (now : Int) (content_id url content title source : String)
    (topics : List String) (summary : String)
    (metadata : List (String × String)) : ArticleMeta :=
  { content_id := content_id
    url := url
    title := title
    source := source
    topics := joinComma topics
    summary := summary
    timestamp := now
    word_count := pyWordCount content
    reading_time := max 1 (pyWordCount content / 200)
    extra := metadata }

/-- The write operation `store_article_with_content_id` (lines 82-145).  The document handed
to the index is `content[:8000]`; the whole body is wrapped in
`try/except`, so an index fault yields a `success=False` result with the
error string and leaves the collection unchanged. -/
def store_article_with_content_id (coll : List StoredArticle)
    (fault : Option String) (now : Int)
    (content_id url content title source : String)
    (topics : List String) (summary : String)
    (metadata : List (String × String)) :
    List StoredArticle × StoreArticleResult :=
  let meta := article_meta now content_id url content title source topics summary metadata
  match fault with
  | some e =>
    (coll,
     { success := false, content_id := content_id, url := none, title := none,
       timestamp := none, error := some e })
  | none =>
    (collAdd StoredArticle.id coll
       { id := content_id, document := pyTake content 8000, meta := meta },
     { success := true, content_id := content_id, url := some url,
       title := some title, timestamp := some now, error := none })

/-- The legacy `store_article` (lines 190-220): derives the content id
from `(source, date, url)` and delegates.  `now` and `dateStr` are the
instant and the `YYYYMMDD` rendering of the same `datetime.now()` call. -/
def store_article (coll : List StoredArticle)
    (fault : Option String) (now : Int) (dateStr : String)
    (url content title source : String)
    (topics : List String) (summary : String)
    (metadata : List (String × String)) :
    List StoredArticle × StoreArticleResult :=
  store_article_with_content_id coll fault now
    (derived_content_id source dateStr url) url content title source topics summary metadata

/-- Result dict of `get_by_content_id` (lines 166-182). -/
structure GetArticleResult where
  content_id : String
  title : String
  url : String
  source : String
  topics : List String
  summary : String
  timestamp : Int
  word_count : Nat
  reading_time : Nat
  content : String
  content_preview : String
deriving Repr, DecidableEq

/-- The lookup `get_by_content_id` (lines 147-186).  The collection argument is
`Option`al: an uninitialized service has `article_collection = None`, so
the attribute access raises inside the `try` and the handler returns
`None` — exactly what a missing id returns. -/
def get_by_content_id (coll : Option (List StoredArticle)) (content_id : String) :
    Option GetArticleResult :=
  match coll with
  | none => none
  | some coll =>
    match collGet StoredArticle.id coll content_id with
    | none => none
    | some e =>
      some
        { content_id := content_id
          title := e.meta.title
          url := e.meta.url
          source := e.meta.source
          topics := splitTopics e.meta.topics
          summary := e.meta.summary
          timestamp := e.meta.timestamp
          word_count := e.meta.word_count
          reading_time := e.meta.reading_time
          content := e.document
          content_preview := pyTake e.document 300 ++ "..." }

/-! ## Article search -/

/-- The slice of a ChromaDB `query` response the formatting loop reads:
`documents[0]`, `metadatas[0]`, and `distances[0]` (absent when the
response carries no distance data, i.e. `results["distances"]` is falsy). -/
structure QueryResponse where
  documents : List String
  metadatas : List ArticleMeta
  distances : Option (List ℚ)
deriving Repr, DecidableEq

/-- The similarity computed for the `i`-th result (lines 277-281):
`1 - results["distances"][0][i] if results["distances"] and
results["distances"][0] else 0`. -/
def similarityOf (distances : Option (List ℚ)) (i : Nat) : ℚ :=
  match distances with
  | none => 0
  | some ds => if ds.isEmpty then 0 else 1 - ds.getD i 0

/-- A response short enough to make the per-index accesses
`documents[0][i]` / `distances[0][i]` raise `IndexError` mid-loop; the
`except` handler then discards everything and returns `[]`. -/
def queryWellFormed (resp : QueryResponse) : Bool :=
  resp.metadatas.length ≤ resp.documents.length &&
    (match resp.distances with
     | some ds => ds.isEmpty || resp.metadatas.length ≤ ds.length
     | none => true)

/-- One result dict of `search_articles` (lines 262-282). -/
structure ArticleSearchResult where
  content_id : String
  url : String
  title : String
  source : String
  topics : List String
  summary : String
  timestamp : Int
  word_count : Nat
  reading_time : Nat
  content_preview : String
  similarity : ℚ
deriving Repr, DecidableEq

/-- Formatting of the `i`-th hit of a query response. -/
def format_article_result (resp : QueryResponse) (i : Nat) (m : ArticleMeta) :
    ArticleSearchResult :=
  { content_id := m.content_id
    url := m.url
    title := m.title
    source := m.source
    topics := splitTopics m.topics
    summary := m.summary
    timestamp := m.timestamp
    word_count := m.word_count
    reading_time := m.reading_time
    content_preview := pyTake (resp.documents.getD i "") 200 ++ "..."
    similarity := similarityOf resp.distances i }

/-- The `where` clause built from the optional filters (lines 245-249);
Python truthiness makes an empty-string filter a no-op.  An empty dict
is passed to the index as `None`. -/
structure WhereClause where
  source : Option String
  topics_contains : Option String
deriving Repr, DecidableEq

def build_where (source_filter topic_filter : Option String) : Option WhereClause :=
  let src := source_filter.bind fun s => if s = "" then none else some s
  let top := topic_filter.bind fun t => if t = "" then none else some t
  match src, top with
  | none, none => none
  | _, _ => some { source := src, topics_contains := top }

/-- The read operation `search_articles` (lines 224-289).  The collection argument is
`Option`al: on an uninitialized service (`article_collection = None`)
the query raises inside the `try` and the handler returns `[]`.  When
initialized, the answer of the index to `(query, n_results, where)` is the
collaborator function applied to those arguments. -/
def search_articles
    (coll : Option (String → Nat → Option WhereClause → QueryResponse))
    (query : String) (limit : Nat)
    (source_filter topic_filter : Option String) : List ArticleSearchResult :=
  match coll with
  | none => []
  | some indexQuery =>
    let resp := indexQuery query limit (build_where source_filter topic_filter)
    if resp.documents.isEmpty then []
    else if queryWellFormed resp then
      resp.metadatas.enum.map fun p => format_article_result resp p.1 p.2
    else []

/-! ## Newspaper storage -/

/-- One article inside a newspaper structure: the fields
`store_newspaper` reads (`title`, `content`, `format.reading_time`,
each defaulting when absent). -/
structure NPArticle where
  title : String
  content : String
  format_reading_time : Nat
deriving Repr, DecidableEq

/-- One section of a newspaper structure. -/
structure NPSection where
  title : String
  articles : List NPArticle
deriving Repr, DecidableEq

/-- The newspaper structure handed to `store_newspaper`.  The
`caller_article_count` / `caller_reading_time` fields model totals a
caller may have included in the dict; the source never reads them
(it recalculates both). -/
structure NewspaperData where
  title : String
  edition_type : String
  sections : List NPSection
  meta_created_at : Option Int
  meta_topics : List String
  meta_tone : String
  caller_article_count : Option Nat
  caller_reading_time : Option Nat
deriving Repr, DecidableEq

/-- The lines `store_newspaper` appends to `sections_text` for one
section (lines 378-385): a section header, then
`f"{article_title}: {article_content}"` with `content[:500]`. -/
def sectionLines (s : NPSection) : List String :=
  ("Section: " ++ s.title) :: s.articles.map fun a => a.title ++ ": " ++ pyTake a.content 500

/-- The joined text `searchable_text = "\n".join(sections_text)` (line 393). -/
def searchable_text (d : NewspaperData) : String :=
  String.intercalate "\n" (d.sections.map sectionLines).flatten

/-- Recalculated `total_articles`: one increment per article in any section. -/
def total_articles (d : NewspaperData) : Nat :=
  (d.sections.map fun s => s.articles.length).sum

/-- Recalculated `total_reading_time`: the sum of `article["format"]["reading_time"]`
over all articles in all sections. -/
def total_reading_time (d : NewspaperData) : Nat :=
  (d.sections.map fun s => (s.articles.map NPArticle.format_reading_time).sum).sum

/-- The metadata dict built by `store_newspaper` (lines 396-409):
`article_count` and `reading_time` are the recalculated totals;
`timestamp` is the `metadata.created_at` of the structure, defaulting to
`datetime.now()`. -/
def newspaper_meta (now : Int) (newspaper_id : String) (d : NewspaperData) : NewspaperMeta :=
  { newspaper_id := newspaper_id
    title := d.title
    edition_type := d.edition_type
    timestamp := d.meta_created_at.getD now
    article_count := total_articles d
    topics := joinComma d.meta_topics
    tone := d.meta_tone
    reading_time := total_reading_time d }

/-- Result dict of `store_newspaper` (lines 423-429 / 433). -/
structure StoreNewspaperResult where
  success : Bool
  newspaper_id : String
  timestamp : Option Int
  article_count : Option Nat
  reading_time : Option Nat
  error : Option String
deriving Repr, DecidableEq

/-- The write operation `store_newspaper` (lines 361-433).  The whole body sits inside
`try/except`, so an index fault yields `success=False` with the error
string and leaves the collection unchanged; otherwise the document is
`searchable_text[:8000]` stored under `newspaper_id`. -/
def store_newspaper (coll : List StoredNewspaper) (fault : Option String)
    (now : Int) (newspaper_id : String) (d : NewspaperData) :
    List StoredNewspaper × StoreNewspaperResult :=
  match fault with
  | some e =>
    (coll,
     { success := false, newspaper_id := newspaper_id, timestamp := none,
       article_count := none, reading_time := none, error := some e })
  | none =>
    let meta := newspaper_meta now newspaper_id d
    (collAdd StoredNewspaper.id coll
       { id := newspaper_id, document := pyTake (searchable_text d) 8000, meta := meta },
     { success := true, newspaper_id := newspaper_id, timestamp := some meta.timestamp,
       article_count := some meta.article_count, reading_time := some meta.reading_time,
       error := none })

/-! ## Newspaper search -/

/-- One result dict of `search_newspapers` (lines 484-497); note it
carries no similarity field at all. -/
structure NewspaperResult where
  newspaper_id : String
  title : String
  edition_type : String
  timestamp : Int
  article_count : Nat
  topics : List String
  tone : String
  reading_time : Nat
deriving Repr, DecidableEq

def format_newspaper (m : NewspaperMeta) : NewspaperResult :=
  { newspaper_id := m.newspaper_id
    title := m.title
    edition_type := m.edition_type
    timestamp := m.timestamp
    article_count := m.article_count
    topics := splitTopics m.topics
    tone := m.tone
    reading_time := m.reading_time }

/-- The sort `newspapers.sort(key=lambda x: x["timestamp"], reverse=True)`
(line 501): a stable sort, newest first. -/
def sortNewestFirst (l : List NewspaperResult) : List NewspaperResult :=
  l.insertionSort fun a b => b.timestamp ≤ a.timestamp

/-- The read operation `search_newspapers` (lines 435-508).  With a truthy `query` the
candidate set is the answer of the index to `(query, n_results=50)`, ordered
most-similar first; otherwise every stored metadata.  Candidates older
than `now - timedelta(days=days_back)` are skipped, the rest are
formatted and sorted newest first.  An uninitialized service
(`newspaper_collection = None`) raises inside the `try`; the handler
returns `[]`. -/
def search_newspapers (coll : Option (List StoredNewspaper))
    (indexQuery : String → Nat → List NewspaperMeta)
    (now : Int) (days_back : Int) (query : Option String) : List NewspaperResult :=
  match coll with
  | none => []
  | some coll =>
    let cutoff := now - days_back * microsecondsPerDay
    let metadatas :=
      match query with
      | some q => if q = "" then coll.map StoredNewspaper.meta else indexQuery q 50
      | none => coll.map StoredNewspaper.meta
    let kept := metadatas.filter fun m => ¬ m.timestamp < cutoff
    sortNewestFirst (kept.map format_newspaper)

/-! ## Retention: age eviction and size caps -/

/-- One per-collection pass of `_cleanup_old_items` (lines 558-597):
collect the ids of entries with `timestamp < now - timedelta(days=max_age_days)`
and delete them. -/
def cleanup_old {α : Type} (getTs : α → Int) (getId : α → String)
    (coll : List α) (now max_age_days : Int) : List α :=
  let cutoff := now - max_age_days * microsecondsPerDay
  let old_ids := (coll.filter fun e => getTs e < cutoff).map getId
  collDelete getId coll old_ids

/-- Age eviction on the `article_archive` collection. -/
def cleanup_old_articles (coll : List StoredArticle) (now max_age_days : Int) :
    List StoredArticle :=
  cleanup_old (fun e => e.meta.timestamp) StoredArticle.id coll now max_age_days

/-- Age eviction on the `newspaper_archive` collection. -/
def cleanup_old_newspapers (coll : List StoredNewspaper) (now max_age_days : Int) :
    List StoredNewspaper :=
  cleanup_old (fun e => e.meta.timestamp) StoredNewspaper.id coll now max_age_days

/-- One per-collection pass of `_enforce_size_limits` (lines 605-649):
if the count exceeds the cap, stably sort `(timestamp, id)` pairs oldest
first and delete the ids of the first `count - cap` of them. -/
def enforce_size_limit {α : Type} (getTs : α → Int) (getId : α → String)
    (coll : List α) (cap : Nat) : List α :=
  if cap < coll.length then
    let excess := coll.length - cap
    let sorted := coll.insertionSort fun a b => getTs a ≤ getTs b
    let oldest_ids := (sorted.take excess).map getId
    collDelete getId coll oldest_ids
  else coll

/-- Size eviction on the `article_archive` collection. -/
def enforce_size_limit_articles (coll : List StoredArticle) (cap : Nat) :
    List StoredArticle :=
  enforce_size_limit (fun e => e.meta.timestamp) StoredArticle.id coll cap

/-- Size eviction on the `newspaper_archive` collection. -/
def enforce_size_limit_newspapers (coll : List StoredNewspaper) (cap : Nat) :
    List StoredNewspaper :=
  enforce_size_limit (fun e => e.meta.timestamp) StoredNewspaper.id coll cap

/-- The full retention sweep `_cleanup_old_items` followed by
`_enforce_size_limits`, on both collections. -/
def cleanup_old_items (articles : List StoredArticle)
    (newspapers : List StoredNewspaper) (now max_age_days : Int) (cap : Nat) :
    List StoredArticle × List StoredNewspaper :=
  (enforce_size_limit_articles (cleanup_old_articles articles now max_age_days) cap,
   enforce_size_limit_newspapers (cleanup_old_newspapers newspapers now max_age_days) cap)

/-! ## Theorems -/

section CollectionLemmas

variable {α : Type} (getId : α → String)

/-- Adding with `collAdd` leaves the id sequence unchanged on overwrite and appends
the new id otherwise. -/
theorem collAdd_map_getId (coll : List α) (e : α) :
    (collAdd getId coll e).map getId =
      if coll.any (fun x => getId x = getId e) then coll.map getId
      else coll.map getId ++ [getId e] := by
  unfold collAdd
  split
  · rw [List.map_map]
    apply List.map_congr_left
    intro x _
    simp only [Function.comp_apply]
    by_cases hx : getId x = getId e
    · simp [hx]
    · simp [hx]
  · rw [List.map_append, List.map_cons, List.map_nil]

theorem length_collAdd_of_mem (coll : List α) (e : α)
    (h : coll.any (fun x => getId x = getId e) = true) :
    (collAdd getId coll e).length = coll.length := by
  unfold collAdd
  rw [if_pos h, List.length_map]

theorem any_collAdd_self (coll : List α) (e : α) :
    (collAdd getId coll e).any (fun x => getId x = getId e) = true := by
  unfold collAdd
  split
  · next h =>
    rw [List.any_eq_true] at h ⊢
    obtain ⟨x, hx, hxe⟩ := h
    rw [decide_eq_true_eq] at hxe
    exact ⟨e, List.mem_map.mpr ⟨x, hx, by simp [hxe]⟩, by simp⟩
  · rw [List.any_eq_true]
    exact ⟨e, List.mem_append_right _ (by simp), by simp⟩

/-- On overwrite, the entry found under the written id is the new one. -/
theorem collGet_collAdd_self (coll : List α) (e : α) :
    collGet getId (collAdd getId coll e) (getId e) = some e := by
  unfold collAdd collGet
  split
  · next h =>
    induction coll with
    | nil => simp at h
    | cons x xs ih =>
      by_cases hx : getId x = getId e
      · simp [List.find?, hx]
      · have h' : xs.any (fun y => getId y = getId e) = true := by
          rw [List.any_eq_true] at h ⊢
          obtain ⟨y, hy, hye⟩ := h
          rcases List.mem_cons.mp hy with rfl | hy'
          · rw [decide_eq_true_eq] at hye
            exact absurd hye hx
          · exact ⟨y, hy', hye⟩
        simpa [List.find?, hx] using ih h'
  · next h =>
    rw [List.find?_append]
    have hnone : coll.find? (fun x => getId x = getId e) = none := by
      rw [List.find?_eq_none]
      intro x hx
      simp only [decide_eq_true_eq]
      intro hxe
      exact h (List.any_eq_true.mpr ⟨x, hx, by simp [hxe]⟩)
    simp [hnone, List.find?]

/-- The id sequence stays duplicate-free across `collAdd`. -/
theorem nodup_map_collAdd (coll : List α) (e : α)
    (h : (coll.map getId).Nodup) : ((collAdd getId coll e).map getId).Nodup := by
  rw [collAdd_map_getId]
  split
  · exact h
  · next hn =>
    rw [List.nodup_append]
    refine ⟨h, List.nodup_singleton _, ?_⟩
    intro i hi
    simp only [List.mem_singleton]
    intro hie
    subst hie
    obtain ⟨x, hx, hxe⟩ := List.mem_map.mp hi
    exact hn (List.any_eq_true.mpr ⟨x, hx, by simp [hxe]⟩)

/-- Filtering a collection for one id counts the occurrences of that id. -/
theorem length_filter_id (coll : List α) (i : String) :
    (coll.filter fun e => getId e = i).length = (coll.map getId).count i := by
  induction coll with
  | nil => rfl
  | cons x xs ih =>
    by_cases hx : getId x = i
    · simp [List.filter_cons, List.count_cons, hx, ih]
    · simp [List.filter_cons, List.count_cons, hx, Ne.symm hx, ih]

end CollectionLemmas

/-- C4: for every body string, `put_item` (`store_article_with_content_id`)
hands the vector index exactly the body truncated to at most 8000
characters, while the stored `word_count` is the whitespace-split word
count of the full untruncated body and the stored `reading_time` is
`max 1 (word_count / 200)` for every body. -/
theorem C4_truncation_and_derived_fields
    (coll : List StoredArticle) (now : Int)
    (content_id url content title source summary : String)
    (topics : List String) (metadata : List (String × String)) :
    (store_article_with_content_id coll none now content_id url content
        title source topics summary metadata).1
      = collAdd StoredArticle.id coll
          { id := content_id, document := pyTake content 8000,
            meta := article_meta now content_id url content title source topics summary metadata }
    ∧ (pyTake content 8000).length ≤ 8000
    ∧ (article_meta now content_id url content title source topics summary metadata).word_count
        = pyWordCount content
    ∧ (article_meta now content_id url content title source topics summary metadata).reading_time
        = max 1 (pyWordCount content / 200) := by
  refine ⟨rfl, ?_, rfl, rfl⟩
  show (content.data.take 8000).length ≤ 8000
  exact List.length_take_le 8000 content.data

/-- C3: `put_digest` (`store_newspaper`) stores `article_count` and the
total reading time recomputed by walking `sections[*].articles[*]`,
ignoring any caller-supplied totals; in particular a structure holding 3
actual articles with caller-supplied `article_count = 999` is stored
with `article_count = 3`. -/
theorem C3_put_digest_recomputes_totals
    (coll : List StoredNewspaper) (now : Int) (newspaper_id : String) (d : NewspaperData) :
    (newspaper_meta now newspaper_id d).article_count
        = ((d.sections.map NPSection.articles).flatten).length
    ∧ (newspaper_meta now newspaper_id d).reading_time
        = (((d.sections.map NPSection.articles).flatten).map NPArticle.format_reading_time).sum
    ∧ (store_newspaper coll none now newspaper_id d).2.article_count
        = some (total_articles d)
    ∧ (store_newspaper coll none now newspaper_id d).2.reading_time
        = some (total_reading_time d)
    ∧ (store_newspaper coll none now newspaper_id d).1
        = collAdd StoredNewspaper.id coll
            { id := newspaper_id, document := pyTake (searchable_text d) 8000,
              meta := newspaper_meta now newspaper_id d }
    ∧ (∀ c c', store_newspaper coll none now newspaper_id
          { d with caller_article_count := c, caller_reading_time := c' }
        = store_newspaper coll none now newspaper_id d)
    ∧ (store_newspaper [] none 0 "np_x"
        { title := "T", edition_type := "standard",
          sections := [⟨"S1", [⟨"a1", "b1", 4⟩, ⟨"a2", "b2", 3⟩]⟩,
                       ⟨"S2", [⟨"a3", "b3", 3⟩]⟩],
          meta_created_at := some 5, meta_topics := [], meta_tone := "",
          caller_article_count := some 999,
          caller_reading_time := some 999 }).2.article_count = some 3 := by
  refine ⟨?_, ?_, rfl, rfl, rfl, ?_, rfl⟩
  · simp [newspaper_meta, total_articles, List.length_flatten, List.map_map,
      Function.comp_def]
  · simp [newspaper_meta, total_reading_time, List.map_flatten, List.sum_flatten,
      List.map_map, Function.comp_def]
  · intro c c'
    cases d
    rfl

/-- C8: each write operation either returns `success = True`, or catches
the failure and returns `success = False` together with an error string;
no exception reaches the caller, for every injected index fault. -/
theorem C8_writes_report_failures
    (fault : Option String) (aColl : List StoredArticle) (nColl : List StoredNewspaper)
    (now : Int) (content_id url content title source dateStr summary newspaper_id : String)
    (topics : List String) (metadata : List (String × String)) (d : NewspaperData) :
    (let r := (store_article_with_content_id aColl fault now content_id url content
        title source topics summary metadata).2;
      (r.success = true ∧ r.error = none) ∨ (r.success = false ∧ ∃ m, r.error = some m))
    ∧ (let r := (store_article aColl fault now dateStr url content
        title source topics summary metadata).2;
      (r.success = true ∧ r.error = none) ∨ (r.success = false ∧ ∃ m, r.error = some m))
    ∧ (let r := (store_newspaper nColl fault now newspaper_id d).2;
      (r.success = true ∧ r.error = none) ∨ (r.success = false ∧ ∃ m, r.error = some m)) := by
  cases fault <;>
    simp [store_article, store_article_with_content_id, store_newspaper]

/-- C2: storing the same `(source, date, url)` twice without an explicit
content id derives the same `cnt_<source>_<YYYYMMDD>_<hash-mod-10000>`
id both times; the second call overwrites the first entry and leaves the
stored-entry count unchanged, with exactly one entry under that id. -/
theorem C2_idempotent_reingestion
    (coll : List StoredArticle) (now1 now2 : Int)
    (dateStr url source content1 content2 title1 title2 summary1 summary2 : String)
    (topics1 topics2 : List String) (md1 md2 : List (String × String))
    (hnodup : (coll.map StoredArticle.id).Nodup) :
    let cid := derived_content_id source dateStr url
    let s1 := store_article coll none now1 dateStr url content1 title1 source
        topics1 summary1 md1
    let s2 := store_article s1.1 none now2 dateStr url content2 title2 source
        topics2 summary2 md2
    s1.2.content_id = cid
    ∧ s2.2.content_id = cid
    ∧ s2.1.length = s1.1.length
    ∧ (s2.1.filter fun e => e.id = cid).length = 1
    ∧ collGet StoredArticle.id s2.1 cid
        = some { id := cid, document := pyTake content2 8000,
                 meta := article_meta now2 cid url content2 title2 source
                   topics2 summary2 md2 } := by
  intro cid s1 s2
  have hcid1 : s1.1 = collAdd StoredArticle.id coll
      { id := cid, document := pyTake content1 8000,
        meta := article_meta now1 cid url content1 title1 source topics1 summary1 md1 } := rfl
  refine ⟨rfl, rfl, ?_, ?_, ?_⟩
  · exact length_collAdd_of_mem StoredArticle.id s1.1 _
      (any_collAdd_self StoredArticle.id coll _)
  · rw [length_filter_id]
    have hcid2 : s2.1 = collAdd StoredArticle.id s1.1
        { id := cid, document := pyTake content2 8000,
          meta := article_meta now2 cid url content2 title2 source topics2 summary2 md2 } := rfl
    have h2 : s2.1.map StoredArticle.id = s1.1.map StoredArticle.id := by
      rw [hcid2, hcid1, collAdd_map_getId,
        if_pos (any_collAdd_self StoredArticle.id coll _)]
    rw [h2, hcid1, collAdd_map_getId]
    split
    · next hmem =>
      rw [List.any_eq_true] at hmem
      obtain ⟨x, hx, hxe⟩ := hmem
      rw [decide_eq_true_eq] at hxe
      exact List.count_eq_one_of_mem hnodup (List.mem_map.mpr ⟨x, hx, hxe⟩)
    · next hmem =>
      have hnot : cid ∉ coll.map StoredArticle.id := by
        intro hin
        obtain ⟨x, hx, hxe⟩ := List.mem_map.mp hin
        exact hmem (List.any_eq_true.mpr ⟨x, hx, by simp [hxe]⟩)
      rw [List.count_append, List.count_eq_zero_of_not_mem hnot]
      simp
  · exact collGet_collAdd_self StoredArticle.id s1.1 _

/-- Witness for C2: re-ingesting the same `(source, date, url)` into an
initially empty archive keeps a single stored entry. -/
theorem C2_idempotent_reingestion_witness :
    (let cid := derived_content_id "web" "20251012" "https://example.com/a"
     let s1 := store_article [] none 100 "20251012" "https://example.com/a"
        "first body" "t1" "web" ["ai"] "s1" []
     let s2 := store_article s1.1 none 200 "20251012" "https://example.com/a"
        "second body" "t2" "web" ["ml"] "s2" []
     s1.2.content_id = cid
     ∧ s2.2.content_id = cid
     ∧ s2.1.length = s1.1.length
     ∧ (s2.1.filter fun e => e.id = cid).length = 1
     ∧ collGet StoredArticle.id s2.1 cid
        = some { id := cid, document := pyTake "second body" 8000,
                 meta := article_meta 200 cid "https://example.com/a" "second body"
                   "t2" "web" ["ml"] "s2" [] }) :=
  C2_idempotent_reingestion [] 100 200 "20251012" "https://example.com/a" "web"
    "first body" "second body" "t1" "t2" "s1" "s2" ["ai"] ["ml"] [] []
    (by simp)

theorem pySplitCommaChars_cons (c : Char) (rest : List Char) :
    pySplitCommaChars (c :: rest) =
      match pySplitCommaChars rest with
      | [] => [[]]
      | acc :: accs => if c = ',' then [] :: acc :: accs else (c :: acc) :: accs := rfl

theorem pySplitCommaChars_ne_nil (l : List Char) : pySplitCommaChars l ≠ [] := by
  induction l with
  | nil => simp [pySplitCommaChars]
  | cons c rest ih =>
    rw [pySplitCommaChars_cons]
    cases h : pySplitCommaChars rest with
    | nil => exact absurd h ih
    | cons a as =>
      by_cases hc : c = ','
      · simp [hc]
      · simp [hc]

theorem pySplitCommaChars_commaFree (l : List Char) (h : ',' ∉ l) :
    pySplitCommaChars l = [l] := by
  induction l with
  | nil => rfl
  | cons c rest ih =>
    have hc : c ≠ ',' := fun hcc => h (hcc ▸ List.mem_cons_self c rest)
    have hr : ',' ∉ rest := fun hm => h (List.mem_cons_of_mem c hm)
    rw [pySplitCommaChars_cons, ih hr]
    simp [hc]

theorem pySplitCommaChars_append (l m : List Char) (h : ',' ∉ l) :
    pySplitCommaChars (l ++ ',' :: m) = l :: pySplitCommaChars m := by
  induction l with
  | nil =>
    simp only [List.nil_append]
    rw [pySplitCommaChars_cons]
    cases hm : pySplitCommaChars m with
    | nil => exact absurd hm (pySplitCommaChars_ne_nil m)
    | cons a as => simp
  | cons c rest ih =>
    have hc : c ≠ ',' := fun hcc => h (hcc ▸ List.mem_cons_self c rest)
    have hr : ',' ∉ rest := fun hmem => h (List.mem_cons_of_mem c hmem)
    simp only [List.cons_append]
    rw [pySplitCommaChars_cons, ih hr]
    simp [hc]

/-- Splitting a comma-joined list of comma-free pieces recovers the
pieces. -/
theorem pySplitCommaChars_joinCommaChars (ls : List (List Char))
    (h : ∀ l ∈ ls, ',' ∉ l) (hne : ls ≠ []) :
    pySplitCommaChars (joinCommaChars ls) = ls := by
  induction ls with
  | nil => exact absurd rfl hne
  | cons l rest ih =>
    cases rest with
    | nil =>
      show pySplitCommaChars (joinCommaChars [l]) = [l]
      rw [joinCommaChars]
      exact pySplitCommaChars_commaFree l (h l (List.mem_cons_self l []))
    | cons l' rest' =>
      show pySplitCommaChars (l ++ ',' :: joinCommaChars (l' :: rest')) = l :: l' :: rest'
      rw [pySplitCommaChars_append l _ (h l (List.mem_cons_self l _))]
      rw [ih (fun x hx => h x (List.mem_cons_of_mem l hx)) (by simp)]

/-- The stored comma-joined topics string decodes back to the original
topics list whenever every topic is non-empty and comma-free (and the
empty list round-trips through the empty string). -/
theorem splitTopics_joinComma (ts : List String)
    (h : ∀ t ∈ ts, t ≠ "" ∧ ',' ∉ t.data) :
    splitTopics (joinComma ts) = ts := by
  cases ts with
  | nil => rfl
  | cons t rest =>
    have hjoin : joinCommaChars ((t :: rest).map String.data) ≠ [] := by
      cases rest with
      | nil =>
        show t.data ≠ []
        intro hd
        exact (h t (List.mem_cons_self t [])).1 (by
          cases t
          simp_all)
      | cons t' rest' =>
        show t.data ++ ',' :: joinCommaChars ((t' :: rest').map String.data) ≠ []
        simp
    have hne : joinComma (t :: rest) ≠ "" := by
      intro hs
      apply hjoin
      have := congrArg String.data hs
      simpa [joinComma] using this
    have hcf : ∀ l ∈ (t :: rest).map String.data, ',' ∉ l := by
      intro l hl
      obtain ⟨s, hs, rfl⟩ := List.mem_map.mp hl
      exact (h s hs).2
    rw [splitTopics, if_neg hne]
    show (pySplitCommaChars (joinComma (t :: rest)).data).map (fun cs => (⟨cs⟩ : String)) = t :: rest
    have hdata : (joinComma (t :: rest)).data = joinCommaChars ((t :: rest).map String.data) := rfl
    rw [hdata, pySplitCommaChars_joinCommaChars _ hcf (by simp), List.map_map]
    exact List.map_id'' (fun s => rfl) _

/-- C10: storing an article and reading it back returns exactly the
original topics list whenever every topic is a non-empty comma-free
string (the empty list also round-trips); topics are persisted as one
comma-joined string and split on commas at read time. -/
theorem C10_topics_round_trip
    (now : Int) (content_id url content title source summary : String)
    (ts : List String) (md : List (String × String))
    (h : ∀ t ∈ ts, t ≠ "" ∧ ',' ∉ t.data) :
    (get_by_content_id
        (some (store_article_with_content_id [] none now content_id url content
          title source ts summary md).1) content_id).map
      (fun g => g.topics) = some ts := by
  simp [store_article_with_content_id, collAdd, get_by_content_id, collGet,
    List.find?, article_meta]
  exact splitTopics_joinComma ts h

/-- Witness for C10 at the concrete topics list `["sports", "nba"]`. -/
theorem C10_topics_round_trip_witness :
    (get_by_content_id
        (some (store_article_with_content_id [] none 0 "cnt_web_20251012_0001"
          "https://example.com/a" "body text" "T" "web" ["sports", "nba"] "" []).1)
        "cnt_web_20251012_0001").map (fun g => g.topics)
      = some ["sports", "nba"] :=
  C10_topics_round_trip 0 "cnt_web_20251012_0001" "https://example.com/a"
    "body text" "T" "web" "" ["sports", "nba"] [] (by decide)

/-- Age eviction keeps exactly the entries not strictly older than the
cutoff `now - max_age_days` (given duplicate-free ids, since deletion is
by id). -/
theorem mem_cleanup_old {α : Type} (getTs : α → Int) (getId : α → String)
    (coll : List α) (now max_age_days : Int)
    (hnodup : (coll.map getId).Nodup) (x : α) (hx : x ∈ coll) :
    x ∈ cleanup_old getTs getId coll now max_age_days
      ↔ ¬ getTs x < now - max_age_days * microsecondsPerDay := by
  simp only [cleanup_old, collDelete]
  rw [List.mem_filter]
  constructor
  · rintro ⟨-, hp⟩
    intro hold
    rw [decide_eq_true_eq] at hp
    apply hp
    have hmem : getId x ∈ (coll.filter fun e =>
        getTs e < now - max_age_days * microsecondsPerDay).map getId :=
      List.mem_map.mpr ⟨x, List.mem_filter.mpr ⟨hx, by simp [hold]⟩, rfl⟩
    exact List.elem_iff.mpr hmem
  · intro hkeep
    refine ⟨hx, ?_⟩
    rw [decide_eq_true_eq]
    intro hcont
    have hmem : getId x ∈ (coll.filter fun e =>
        getTs e < now - max_age_days * microsecondsPerDay).map getId :=
      List.elem_iff.mp hcont
    obtain ⟨y, hy, hyx⟩ := List.mem_map.mp hmem
    obtain ⟨hy', hyold⟩ := List.mem_filter.mp hy
    have hxy : y = x := List.inj_on_of_nodup_map hnodup hy' hx hyx
    subst hxy
    rw [decide_eq_true_eq] at hyold
    exact hkeep hyold

/-- C6: in the age-eviction phase, an entry whose `created_at` equals
`now - max_age_days` exactly is retained, and an entry strictly older
than the cutoff (by any amount) is deleted; the same strict-`<`
convention applies to both collections. -/
theorem C6_age_eviction_boundary
    (articles : List StoredArticle) (newspapers : List StoredNewspaper)
    (now max_age_days : Int) (a : StoredArticle) (n : StoredNewspaper)
    (hA : (articles.map StoredArticle.id).Nodup)
    (hN : (newspapers.map StoredNewspaper.id).Nodup)
    (ha : a ∈ articles) (hn : n ∈ newspapers) :
    (a.meta.timestamp = now - max_age_days * microsecondsPerDay →
        a ∈ cleanup_old_articles articles now max_age_days)
    ∧ (a.meta.timestamp < now - max_age_days * microsecondsPerDay →
        a ∉ cleanup_old_articles articles now max_age_days)
    ∧ (n.meta.timestamp = now - max_age_days * microsecondsPerDay →
        n ∈ cleanup_old_newspapers newspapers now max_age_days)
    ∧ (n.meta.timestamp < now - max_age_days * microsecondsPerDay →
        n ∉ cleanup_old_newspapers newspapers now max_age_days) := by
  have hA' := mem_cleanup_old (fun e => e.meta.timestamp) StoredArticle.id
    articles now max_age_days hA a ha
  have hN' := mem_cleanup_old (fun e => e.meta.timestamp) StoredNewspaper.id
    newspapers now max_age_days hN n hn
  exact ⟨fun he => hA'.mpr (show ¬ a.meta.timestamp <
        now - max_age_days * microsecondsPerDay by rw [he]; exact lt_irrefl _),
    fun hlt hmem => (hA'.mp hmem) hlt,
    fun he => hN'.mpr (show ¬ n.meta.timestamp <
        now - max_age_days * microsecondsPerDay by rw [he]; exact lt_irrefl _),
    fun hlt hmem => (hN'.mp hmem) hlt⟩

/-- An article timestamped exactly at the 60-day cutoff (for `now = 0`). -/
def keepArticle : StoredArticle :=
  { id := "a_keep", document := "keep",
    meta := { content_id := "a_keep", url := "u1", title := "t1", source := "web",
              topics := "", summary := "", timestamp := -5184000000000,
              word_count := 1, reading_time := 1, extra := [] } }

/-- An article one microsecond older than the 60-day cutoff. -/
def oldArticle : StoredArticle :=
  { id := "a_old", document := "old",
    meta := { content_id := "a_old", url := "u2", title := "t2", source := "web",
              topics := "", summary := "", timestamp := -5184000000001,
              word_count := 1, reading_time := 1, extra := [] } }

/-- A newspaper timestamped exactly at the 60-day cutoff (for `now = 0`). -/
def keepNewspaper : StoredNewspaper :=
  { id := "n_keep", document := "keep",
    meta := { newspaper_id := "n_keep", title := "", edition_type := "standard",
              timestamp := -5184000000000, article_count := 0, topics := "",
              tone := "", reading_time := 0 } }

/-- A newspaper one microsecond older than the 60-day cutoff. -/
def oldNewspaper : StoredNewspaper :=
  { id := "n_old", document := "old",
    meta := { newspaper_id := "n_old", title := "", edition_type := "standard",
              timestamp := -5184000000001, article_count := 0, topics := "",
              tone := "", reading_time := 0 } }

/-- Witness for C6 with `now = 0`, `max_age_days = 60`: the entry at the
cutoff is retained and the entry one microsecond older is evicted, in
both collections. -/
theorem C6_age_eviction_boundary_witness :
    ((keepArticle.meta.timestamp = 0 - 60 * microsecondsPerDay →
        keepArticle ∈ cleanup_old_articles [keepArticle, oldArticle] 0 60)
      ∧ (keepArticle.meta.timestamp < 0 - 60 * microsecondsPerDay →
        keepArticle ∉ cleanup_old_articles [keepArticle, oldArticle] 0 60)
      ∧ (keepNewspaper.meta.timestamp = 0 - 60 * microsecondsPerDay →
        keepNewspaper ∈ cleanup_old_newspapers [keepNewspaper, oldNewspaper] 0 60)
      ∧ (keepNewspaper.meta.timestamp < 0 - 60 * microsecondsPerDay →
        keepNewspaper ∉ cleanup_old_newspapers [keepNewspaper, oldNewspaper] 0 60))
    ∧ ((oldArticle.meta.timestamp = 0 - 60 * microsecondsPerDay →
        oldArticle ∈ cleanup_old_articles [keepArticle, oldArticle] 0 60)
      ∧ (oldArticle.meta.timestamp < 0 - 60 * microsecondsPerDay →
        oldArticle ∉ cleanup_old_articles [keepArticle, oldArticle] 0 60)
      ∧ (oldNewspaper.meta.timestamp = 0 - 60 * microsecondsPerDay →
        oldNewspaper ∈ cleanup_old_newspapers [keepNewspaper, oldNewspaper] 0 60)
      ∧ (oldNewspaper.meta.timestamp < 0 - 60 * microsecondsPerDay →
        oldNewspaper ∉ cleanup_old_newspapers [keepNewspaper, oldNewspaper] 0 60)) :=
  ⟨C6_age_eviction_boundary [keepArticle, oldArticle] [keepNewspaper, oldNewspaper]
      0 60 keepArticle keepNewspaper (by decide) (by decide) (by decide) (by decide),
   C6_age_eviction_boundary [keepArticle, oldArticle] [keepNewspaper, oldNewspaper]
      0 60 oldArticle oldNewspaper (by decide) (by decide) (by decide) (by decide)⟩

section SizeLimit

variable {α : Type} (getTs : α → Int) (getId : α → String)

/-- When over the cap, size eviction is a deletion of the oldest ids:
the surviving entries are a permutation of what a stable oldest-first
sort keeps after dropping the first `count - cap` entries. -/
theorem enforce_size_limit_perm_drop (coll : List α) (cap : Nat)
    (hid : (coll.map getId).Nodup) (hlen : cap < coll.length) :
    List.Perm (enforce_size_limit getTs getId coll cap)
      ((coll.insertionSort fun a b => getTs a ≤ getTs b).drop (coll.length - cap)) := by
  have hperm : List.Perm (coll.insertionSort fun a b => getTs a ≤ getTs b) coll :=
    List.perm_insertionSort _ coll
  set sorted := coll.insertionSort fun a b => getTs a ≤ getTs b with hsorted_def
  set excess := coll.length - cap with hexcess_def
  set oldest := (sorted.take excess).map getId with holdest_def
  have hnd_coll : coll.Nodup := List.Nodup.of_map getId hid
  have hnd_sorted : sorted.Nodup := (hperm.nodup_iff).mpr hnd_coll
  have hres : enforce_size_limit getTs getId coll cap
      = coll.filter fun e => ¬ oldest.contains (getId e) := by
    simp only [enforce_size_limit, if_pos hlen]
    rw [holdest_def, hsorted_def, hexcess_def]
    rfl
  have hdisj : List.Disjoint (sorted.take excess) (sorted.drop excess) := by
    have h := hnd_sorted
    rw [← List.take_append_drop excess sorted] at h
    exact List.disjoint_of_nodup_append h
  have hfilter_take : ((sorted.take excess).filter
      fun e => ¬ oldest.contains (getId e)) = [] := by
    rw [List.filter_eq_nil_iff]
    intro x hx
    rw [decide_eq_true_eq, not_not]
    exact List.elem_iff.mpr (List.mem_map.mpr ⟨x, hx, rfl⟩)
  have hfilter_drop : ((sorted.drop excess).filter
      fun e => ¬ oldest.contains (getId e)) = sorted.drop excess := by
    rw [List.filter_eq_self]
    intro x hx
    rw [decide_eq_true_eq]
    intro hcont
    obtain ⟨y, hy, hyx⟩ := List.mem_map.mp (List.elem_iff.mp hcont)
    have hysorted : y ∈ coll := hperm.mem_iff.mp (List.mem_of_mem_take hy)
    have hxcoll : x ∈ coll := hperm.mem_iff.mp (List.mem_of_mem_drop hx)
    have hxy : y = x := List.inj_on_of_nodup_map hid hysorted hxcoll hyx
    subst hxy
    exact hdisj hy hx
  rw [hres]
  have hstep : List.Perm (coll.filter fun e => ¬ oldest.contains (getId e))
      (sorted.filter fun e => ¬ oldest.contains (getId e)) := (hperm.filter _).symm
  have hfin : (sorted.filter fun e => ¬ oldest.contains (getId e))
      = sorted.drop excess := by
    conv_lhs => rw [← List.take_append_drop excess sorted]
    rw [List.filter_append, hfilter_take, hfilter_drop, List.nil_append]
  exact hfin ▸ hstep

/-- C5: when the count of a collection exceeds the cap, size eviction deletes
exactly the `count - cap` entries with the oldest timestamps (given
duplicate-free ids and pairwise distinct timestamps), so exactly the cap
many newest entries survive: the result has length `cap`, is drawn from
the collection, and every deleted entry is strictly older than every
retained one. -/
theorem C5_size_cap_evicts_oldest (coll : List α) (cap : Nat)
    (hid : (coll.map getId).Nodup)
    (hts : (coll.map getTs).Nodup)
    (hlen : cap < coll.length) :
    (enforce_size_limit getTs getId coll cap).length = cap
    ∧ (∀ r ∈ enforce_size_limit getTs getId coll cap, r ∈ coll)
    ∧ (∀ d ∈ coll, d ∉ enforce_size_limit getTs getId coll cap →
        ∀ r ∈ enforce_size_limit getTs getId coll cap, getTs d < getTs r) := by
  haveI : IsTotal α (fun a b : α => getTs a ≤ getTs b) :=
    ⟨fun a b => le_total (getTs a) (getTs b)⟩
  haveI : IsTrans α (fun a b : α => getTs a ≤ getTs b) :=
    ⟨fun a b c hab hbc => le_trans hab hbc⟩
  have hperm : List.Perm (coll.insertionSort fun a b => getTs a ≤ getTs b) coll :=
    List.perm_insertionSort _ coll
  have hpd := enforce_size_limit_perm_drop getTs getId coll cap hid hlen
  set sorted := coll.insertionSort fun a b => getTs a ≤ getTs b with hsorted_def
  set excess := coll.length - cap with hexcess_def
  have hnd_coll : coll.Nodup := List.Nodup.of_map getId hid
  have hnd_sorted : sorted.Nodup := (hperm.nodup_iff).mpr hnd_coll
  have hsorted : sorted.Sorted fun a b : α => getTs a ≤ getTs b :=
    List.sorted_insertionSort _ coll
  have hdisj : List.Disjoint (sorted.take excess) (sorted.drop excess) := by
    have h := hnd_sorted
    rw [← List.take_append_drop excess sorted] at h
    exact List.disjoint_of_nodup_append h
  have hmem_res : ∀ x, x ∈ enforce_size_limit getTs getId coll cap
      ↔ x ∈ sorted.drop excess := fun x => hpd.mem_iff
  refine ⟨?_, ?_, ?_⟩
  · rw [hpd.length_eq, List.length_drop, hperm.length_eq]
    omega
  · intro r hr
    exact hperm.mem_iff.mp (List.mem_of_mem_drop ((hmem_res r).mp hr))
  · intro d hd hdnot r hr
    have hrdrop : r ∈ sorted.drop excess := (hmem_res r).mp hr
    have hrcoll : r ∈ coll := hperm.mem_iff.mp (List.mem_of_mem_drop hrdrop)
    have hdtake : d ∈ sorted.take excess := by
      have hdsorted : d ∈ sorted := hperm.mem_iff.mpr hd
      rw [← List.take_append_drop excess sorted] at hdsorted
      rcases List.mem_append.mp hdsorted with h | h
      · exact h
      · exact absurd ((hmem_res d).mpr h) hdnot
    have hle : getTs d ≤ getTs r := by
      have h := hsorted
      rw [List.Sorted, ← List.take_append_drop excess sorted,
        List.pairwise_append] at h
      exact h.2.2 d hdtake r hrdrop
    have hne : d ≠ r := fun hdr => hdisj hdtake (hdr ▸ hrdrop)
    have htsne : getTs d ≠ getTs r := fun hts_eq =>
      hne (List.inj_on_of_nodup_map hts hd hrcoll hts_eq)
    exact lt_of_le_of_ne hle htsne

end SizeLimit

/-- A minimal stored article with the given id and timestamp. -/
def tinyArticle (i : String) (t : Int) : StoredArticle :=
  { id := i, document := "",
    meta := { content_id := i, url := "", title := "", source := "web",
              topics := "", summary := "", timestamp := t,
              word_count := 0, reading_time := 1, extra := [] } }

/-- Witness for C5: four articles (inserted out of timestamp order) over
a cap of 2 — the two oldest are removed, the two newest retained. -/
theorem C5_size_cap_evicts_oldest_witness :
    (enforce_size_limit (fun e => e.meta.timestamp) StoredArticle.id
        [tinyArticle "a1" 3, tinyArticle "a2" 1, tinyArticle "a3" 4,
         tinyArticle "a4" 2] 2).length = 2
    ∧ (∀ r ∈ enforce_size_limit (fun e => e.meta.timestamp) StoredArticle.id
        [tinyArticle "a1" 3, tinyArticle "a2" 1, tinyArticle "a3" 4,
         tinyArticle "a4" 2] 2,
        r ∈ [tinyArticle "a1" 3, tinyArticle "a2" 1, tinyArticle "a3" 4,
         tinyArticle "a4" 2])
    ∧ (∀ d ∈ [tinyArticle "a1" 3, tinyArticle "a2" 1, tinyArticle "a3" 4,
         tinyArticle "a4" 2],
        d ∉ enforce_size_limit (fun e => e.meta.timestamp) StoredArticle.id
          [tinyArticle "a1" 3, tinyArticle "a2" 1, tinyArticle "a3" 4,
           tinyArticle "a4" 2] 2 →
        ∀ r ∈ enforce_size_limit (fun e => e.meta.timestamp) StoredArticle.id
          [tinyArticle "a1" 3, tinyArticle "a2" 1, tinyArticle "a3" 4,
           tinyArticle "a4" 2] 2,
          d.meta.timestamp < r.meta.timestamp) :=
  C5_size_cap_evicts_oldest (fun e => e.meta.timestamp) StoredArticle.id
    [tinyArticle "a1" 3, tinyArticle "a2" 1, tinyArticle "a3" 4, tinyArticle "a4" 2]
    2 (by decide) (by decide) (by decide)

/-- A digest the index ranks FIRST for the query (highest similarity,
e.g. score 0.9) but whose `created_at` is older. -/
def oldHighSimMeta : NewspaperMeta :=
  { newspaper_id := "np_old", title := "Old edition", edition_type := "standard",
    timestamp := 6 * microsecondsPerDay, article_count := 3, topics := "",
    tone := "", reading_time := 9 }

/-- A digest the index ranks SECOND for the query (lower similarity,
e.g. score 0.3) but whose `created_at` is newer. -/
def newLowSimMeta : NewspaperMeta :=
  { newspaper_id := "np_new", title := "New edition", edition_type := "standard",
    timestamp := 7 * microsecondsPerDay, article_count := 2, topics := "",
    tone := "", reading_time := 5 }

/-- C1: with a non-empty query, `search_newspapers` uses similarity only
to select the candidate set (the 50-candidate over-fetch), applies the
date cutoff, and returns the survivors ordered by timestamp descending —
never by similarity; in particular the newer low-similarity digest
precedes the older high-similarity one. -/
theorem C1_query_search_orders_by_recency
    (coll : List StoredNewspaper) (iq : String → Nat → List NewspaperMeta)
    (now days_back : Int) (q : String) (hq : q ≠ "") :
    (search_newspapers (some coll) iq now days_back (some q)).Pairwise
        (fun a b => b.timestamp ≤ a.timestamp)
    ∧ List.Perm (search_newspapers (some coll) iq now days_back (some q))
        (((iq q 50).filter fun m =>
            ¬ m.timestamp < now - days_back * microsecondsPerDay).map format_newspaper)
    ∧ (search_newspapers (some coll) iq now days_back (some q)).length
        ≤ (iq q 50).length
    ∧ search_newspapers (some []) (fun _ _ => [oldHighSimMeta, newLowSimMeta])
        (10 * microsecondsPerDay) 5 (some "ai news")
        = [format_newspaper newLowSimMeta, format_newspaper oldHighSimMeta] := by
  haveI : IsTotal NewspaperResult (fun a b => b.timestamp ≤ a.timestamp) :=
    ⟨fun a b => le_total b.timestamp a.timestamp⟩
  haveI : IsTrans NewspaperResult (fun a b => b.timestamp ≤ a.timestamp) :=
    ⟨fun a b c hab hbc => le_trans hbc hab⟩
  have hunfold : search_newspapers (some coll) iq now days_back (some q)
      = sortNewestFirst (((iq q 50).filter fun m =>
          ¬ m.timestamp < now - days_back * microsecondsPerDay).map format_newspaper) := by
    simp only [search_newspapers, if_neg hq]
  refine ⟨?_, ?_, ?_, by decide⟩
  · rw [hunfold]
    exact List.sorted_insertionSort _ _
  · rw [hunfold]
    exact List.perm_insertionSort _ _
  · rw [hunfold]
    calc (sortNewestFirst (((iq q 50).filter fun m =>
          ¬ m.timestamp < now - days_back * microsecondsPerDay).map format_newspaper)).length
        = (((iq q 50).filter fun m =>
            ¬ m.timestamp < now - days_back * microsecondsPerDay).map format_newspaper).length :=
          (List.perm_insertionSort _ _).length_eq
      _ = ((iq q 50).filter fun m =>
            ¬ m.timestamp < now - days_back * microsecondsPerDay).length :=
          List.length_map _ _
      _ ≤ (iq q 50).length := List.length_filter_le _ _

/-- Witness for C1: two candidates returned by the index in similarity
order (older-but-more-similar first) come back ordered by recency. -/
theorem C1_query_search_orders_by_recency_witness :
    ("ai news" ≠ "")
    ∧ ((search_newspapers (some []) (fun _ _ => [oldHighSimMeta, newLowSimMeta])
          (10 * microsecondsPerDay) 5 (some "ai news")).Pairwise
          (fun a b => b.timestamp ≤ a.timestamp)
      ∧ List.Perm (search_newspapers (some [])
            (fun _ _ => [oldHighSimMeta, newLowSimMeta])
            (10 * microsecondsPerDay) 5 (some "ai news"))
          ((([oldHighSimMeta, newLowSimMeta] : List NewspaperMeta).filter fun m =>
              ¬ m.timestamp < 10 * microsecondsPerDay - 5 * microsecondsPerDay).map
            format_newspaper)
      ∧ (search_newspapers (some []) (fun _ _ => [oldHighSimMeta, newLowSimMeta])
            (10 * microsecondsPerDay) 5 (some "ai news")).length
          ≤ ([oldHighSimMeta, newLowSimMeta] : List NewspaperMeta).length
      ∧ search_newspapers (some []) (fun _ _ => [oldHighSimMeta, newLowSimMeta])
          (10 * microsecondsPerDay) 5 (some "ai news")
          = [format_newspaper newLowSimMeta, format_newspaper oldHighSimMeta]) :=
  ⟨by decide,
   C1_query_search_orders_by_recency [] (fun _ _ => [oldHighSimMeta, newLowSimMeta])
     (10 * microsecondsPerDay) 5 "ai news" (by decide)⟩

/-- A concrete stored-article metadata record used in closed instances. -/
def exampleArticleMeta : ArticleMeta :=
  { content_id := "cnt_web_20251012_0001", url := "https://example.com/a",
    title := "An article", source := "web", topics := "", summary := "",
    timestamp := 0, word_count := 2, reading_time := 1, extra := [] }

/-- C9 counterexample: every read operation invoked on an uninitialized
archive (`article_collection = None`) silently returns the empty result —
`[]` for the searches and `None` for the id lookup — the very same
values an initialized archive returns on a miss, so there is no distinct
"not initialized" condition.  (The `AttributeError` raised by the `None`
attribute access is swallowed by the blanket `except` handler.) -/
theorem C9_counterexample :
    search_articles none "climate" 5 none none = []
    ∧ get_by_content_id none "cnt_web_20251012_0001" = none
    ∧ search_newspapers none (fun _ _ => []) 0 7 (some "climate") = []
    ∧ get_by_content_id (some []) "cnt_web_20251012_0001" = none
    ∧ search_articles (some fun _ _ _ => ⟨[], [], none⟩) "climate" 5 none none = [] :=
  ⟨rfl, rfl, rfl, rfl, rfl⟩

/-- C9 amended: read operations on an uninitialized archive catch the
internal error and silently return the empty result (`[]` for
`search_articles` / `search_newspapers`, `None` for `get_by_content_id`),
indistinguishable from a miss on an initialized archive; they do not
fail fast with a distinct "not initialized" condition. -/
theorem C9_uninitialized_reads_return_empty
    (q cid : String) (limit : Nat) (sf tf : Option String)
    (iq : String → Nat → List NewspaperMeta)
    (now db : Int) (query : Option String) :
    search_articles none q limit sf tf = []
    ∧ get_by_content_id none cid = none
    ∧ search_newspapers none iq now db query = [] :=
  ⟨rfl, rfl, rfl⟩

/-- A query response whose (cosine) distance is 3/2 — inside the
documented `[0, 2]` range of the index. -/
def respHighDistance : QueryResponse :=
  { documents := ["some document text"], metadatas := [exampleArticleMeta],
    distances := some [3/2] }

/-- C7 counterexample: the cosine distance of the index ranges over `[0, 2]`,
and for the admissible distance `3/2` the computed similarity is
`1 - 3/2 = -1/2`, which does not lie in `[0, 1]` — the code applies no
clamping. -/
theorem C7_counterexample :
    ((0:ℚ) ≤ 3/2 ∧ (3/2:ℚ) ≤ 2)
    ∧ (search_articles (some fun _ _ _ => respHighDistance) "q" 5 none none).map
        ArticleSearchResult.similarity = [-(1/2 : ℚ)]
    ∧ ¬ ((0:ℚ) ≤ -(1/2 : ℚ)) := by
  refine ⟨⟨by norm_num, by norm_num⟩, ?_, by norm_num⟩
  show [similarityOf (some [3/2]) 0] = [-(1/2 : ℚ)]
  norm_num [similarityOf]

/-- Each similarity the formatting loop produces lies in `[-1, 1]`
whenever every reported distance lies in `[0, 2]`. -/
theorem similarityOf_bounds (dist : Option (List ℚ)) (i : Nat)
    (h : ∀ ds, dist = some ds → ∀ d ∈ ds, 0 ≤ d ∧ d ≤ 2) :
    -1 ≤ similarityOf dist i ∧ similarityOf dist i ≤ 1 := by
  cases dist with
  | none => simp [similarityOf]
  | some ds =>
    by_cases he : ds.isEmpty
    · simp [similarityOf, he]
    · have hd : 0 ≤ ds.getD i 0 ∧ ds.getD i 0 ≤ 2 := by
        by_cases hi : i < ds.length
        · rw [List.getD_eq_getElem ds 0 hi]
          exact h ds rfl _ (List.getElem_mem hi)
        · rw [List.getD_eq_default ds 0 (Nat.le_of_not_lt hi)]
          norm_num
      have h1 := hd.1
      have h2 := hd.2
      simp only [similarityOf]
      rw [if_neg he]
      constructor <;> linarith

/-- C7 amended: the `similarity` of each result equals `1 - distance` as
reported by the index and equals `0` when the index returns no distance
data; for cosine distances in `[0, 2]` the similarity therefore lies in
`[-1, 1]` (not `[0, 1]`). -/
theorem C7_similarity_formula_and_range
    (iq : String → Nat → Option WhereClause → QueryResponse)
    (q : String) (limit : Nat) (sf tf : Option String)
    (hd : ∀ ds, (iq q limit (build_where sf tf)).distances = some ds →
        ∀ d ∈ ds, 0 ≤ d ∧ d ≤ 2) :
    (∀ r ∈ search_articles (some iq) q limit sf tf,
        -1 ≤ r.similarity ∧ r.similarity ≤ 1)
    ∧ ((iq q limit (build_where sf tf)).distances = none →
        ∀ r ∈ search_articles (some iq) q limit sf tf, r.similarity = 0)
    ∧ (∀ resp i m, (format_article_result resp i m).similarity
        = similarityOf resp.distances i) := by
  refine ⟨?_, ?_, fun _ _ _ => rfl⟩
  · intro r hr
    simp only [search_articles] at hr
    split at hr
    · exact absurd hr (List.not_mem_nil r)
    · split at hr
      · simp only [List.mem_map] at hr
        obtain ⟨p, _, rfl⟩ := hr
        exact similarityOf_bounds _ _ hd
      · exact absurd hr (List.not_mem_nil r)
  · intro hnone r hr
    simp only [search_articles] at hr
    split at hr
    · exact absurd hr (List.not_mem_nil r)
    · split at hr
      · simp only [List.mem_map] at hr
        obtain ⟨p, _, rfl⟩ := hr
        simp [format_article_result, hnone, similarityOf]
      · exact absurd hr (List.not_mem_nil r)

/-- Witness for the amended C7 at a concrete response with distance
`1/2`: the hypothesis holds and the conclusions apply. -/
theorem C7_similarity_formula_and_range_witness :
    (∀ ds, (QueryResponse.mk ["some document text"] [exampleArticleMeta] (some [1/2])).distances
        = some ds → ∀ d ∈ ds, (0:ℚ) ≤ d ∧ d ≤ 2)
    ∧ ((∀ r ∈ search_articles
          (some fun _ _ _ => ⟨["some document text"], [exampleArticleMeta], some [1/2]⟩)
          "q" 5 none none, -1 ≤ r.similarity ∧ r.similarity ≤ 1)
      ∧ ((QueryResponse.mk ["some document text"] [exampleArticleMeta] (some [1/2])).distances
            = none →
          ∀ r ∈ search_articles
            (some fun _ _ _ => ⟨["some document text"], [exampleArticleMeta], some [1/2]⟩)
            "q" 5 none none, r.similarity = 0)
      ∧ (∀ resp i m, (format_article_result resp i m).similarity
          = similarityOf resp.distances i)) := by
  have hd : ∀ ds, (QueryResponse.mk ["some document text"] [exampleArticleMeta]
      (some [1/2])).distances = some ds → ∀ d ∈ ds, (0:ℚ) ≤ d ∧ d ≤ 2 := by
    intro ds hds d hdm
    cases hds
    simp only [List.mem_singleton] at hdm
    subst hdm
    norm_num
  exact ⟨hd, C7_similarity_formula_and_range
    (fun _ _ _ => ⟨["some document text"], [exampleArticleMeta], some [1/2]⟩)
    "q" 5 none none hd⟩

end ArticleMemory
